import Mathlib

/-!
Shallow embedding of the pass-timing accumulator (`lib/cretonne/src/timing.rs`)
and the concurrent test runner (`lib/filetests/src/concurrent.rs`) of the
cretonne repository, with theorems settling the specification claims.

Time is modelled in nanoseconds as `Nat` (Rust `Duration` addition panics on
overflow and never occurs here; subtraction is only ever the `checked_sub`
form, modelled explicitly).  Thread-local state (`CURRENT_PASS`, `PASS_TIME`)
is modelled as an explicit `ThreadState` value threaded through the
operations.  Panics (`expect`, `assert!`, `debug_assert_eq!`) are modelled as
`Except.error` carrying the panic message.
-/

namespace Cretonne

/-- The C-style enum generated by `define_passes!`: every timed pass plus the
sentinel `None` variant. -/
inductive Pass
  | process_file
  | parse_text
  | wasm_translate_module
  | wasm_translate_function
  | verifier
  | verify_cssa
  | verify_liveness
  | verify_locations
  | verify_flags
  | compile
  | flowgraph
  | domtree
  | loop_analysis
  | postopt
  | preopt
  | dce
  | legalize
  | gvn
  | licm
  | unreachable_code
  | regalloc
  | ra_liveness
  | ra_cssa
  | ra_spilling
  | ra_reload
  | ra_coloring
  | prologue_epilogue
  | binemit
  | layout_renumber
  | none
deriving DecidableEq, Fintype, Repr

/-- Rust `Pass::idx`: the C-style discriminant, `self as usize`. -/
def Pass.idx : Pass → Nat
  | .process_file => 0
  | .parse_text => 1
  | .wasm_translate_module => 2
  | .wasm_translate_function => 3
  | .verifier => 4
  | .verify_cssa => 5
  | .verify_liveness => 6
  | .verify_locations => 7
  | .verify_flags => 8
  | .compile => 9
  | .flowgraph => 10
  | .domtree => 11
  | .loop_analysis => 12
  | .postopt => 13
  | .preopt => 14
  | .dce => 15
  | .legalize => 16
  | .gvn => 17
  | .licm => 18
  | .unreachable_code => 19
  | .regalloc => 20
  | .ra_liveness => 21
  | .ra_cssa => 22
  | .ra_spilling => 23
  | .ra_reload => 24
  | .ra_coloring => 25
  | .prologue_epilogue => 26
  | .binemit => 27
  | .layout_renumber => 28
  | .none => 29

/-- Rust `NUM_PASSES = Pass::None as usize`. -/
def NUM_PASSES : Nat := Pass.none.idx

/-- The `DESCRIPTIONS` array generated by `define_passes!`. -/
def DESCRIPTIONS : List String :=
  [ "Processing test file"
  , "Parsing textual Cretonne IR"
  , "Translate WASM module"
  , "Translate WASM function"
  , "Verify Cretonne IR"
  , "Verify CSSA"
  , "Verify live ranges"
  , "Verify value locations"
  , "Verify CPU flags"
  , "Compilation passes"
  , "Control flow graph"
  , "Dominator tree"
  , "Loop analysis"
  , "Post-legalization rewriting"
  , "Pre-legalization rewriting"
  , "Dead code elimination"
  , "Legalization"
  , "Global value numbering"
  , "Loop invariant code motion"
  , "Remove unreachable blocks"
  , "Register allocation"
  , "RA liveness analysis"
  , "RA coalescing CSSA"
  , "RA spilling"
  , "RA reloading"
  , "RA coloring"
  , "Prologue/epilogue insertion"
  , "Binary machine code emission"
  , "Layout full renumbering"
  ]

/-- Array indexing that returns `Option`, modelling Rust slice `get`. -/
def getIdx? {α : Type} : List α → Nat → Option α
  | [], _ => Option.none
  | a :: _, 0 => some a
  | _ :: l, n + 1 => getIdx? l n

/-- In-place update at an index, modelling `get_mut` followed by a field
update; out-of-range indices leave the list unchanged (the `get_mut` returned
`None` and the `if let` body was skipped). -/
def modifyIdx {α : Type} : List α → Nat → (α → α) → List α
  | [], _, _ => []
  | a :: l, 0, f => f a :: l
  | a :: l, n + 1, f => a :: modifyIdx l n f

/-- Rust `impl fmt::Display for Pass`: description lookup with the
`"<no pass>"` fallback for out-of-range indices. -/
def Pass.display (p : Pass) : String :=
  match getIdx? DESCRIPTIONS p.idx with
  | some s => s
  | Option.none => "<no pass>"

/-- Rust `PassTime { total, child }`, durations in nanoseconds. -/
structure PassTime where
  total : Nat
  child : Nat
deriving DecidableEq, Repr

/-- Rust `Default::default()` for `PassTime`: both durations zero. -/
def PassTime.default : PassTime := { total := 0, child := 0 }

/-- Rust `PassTimes { pass: [PassTime; NUM_PASSES] }`.  The array is modelled as a
list; well-formed tables have length `NUM_PASSES`. -/
structure PassTimes where
  pass : List PassTime
deriving DecidableEq, Repr

/-- Rust `Default::default()` for `PassTimes`: `NUM_PASSES` zeroed entries. -/
def PassTimes.default : PassTimes := { pass := List.replicate NUM_PASSES PassTime.default }

/-- The entry of a table at an array index (zero entry if out of range; every
in-range read in the source is on an index below the table length). -/
def PassTimes.entry (t : PassTimes) (i : Nat) : PassTime :=
  (getIdx? t.pass i).getD PassTime.default

/-- Rust `TimingToken { start, pass, prev }`. -/
structure TimingToken where
  start : Nat
  pass : Pass
  prev : Pass
deriving DecidableEq, Repr

/-- The thread-local state of the timing module: the `CURRENT_PASS` cell and
the `PASS_TIME` table of the calling thread. -/
structure ThreadState where
  cur : Pass
  table : PassTimes
deriving DecidableEq, Repr

/-- Rust `start_pass`: replace `CURRENT_PASS` with `pass`, capturing the previous
value, and build a token with the current timestamp. -/
def start_pass (pass : Pass) (now : Nat) (st : ThreadState) : TimingToken × ThreadState :=
  ({ start := now, pass := pass, prev := st.cur }, { st with cur := pass })

/-- Rust `impl Drop for TimingToken`: compute the elapsed duration, restore
`CURRENT_PASS` to `prev`, check `debug_assert_eq!(self.pass, old_cur)`, then
add the duration to `total` of `pass`'s entry and, when `prev.idx()` is in
range (`get_mut` hit), to `child` of `prev`'s entry.  The assertion failure is
a panic, modelled as `Except.error`; tokens built by `start_pass` always carry
a non-sentinel `pass`, so the direct indexing `pass[self.pass.idx()]` never
goes out of range. -/
def TimingToken.drop (tok : TimingToken) (now : Nat) (st : ThreadState) :
    Except String ThreadState :=
  let duration := now - tok.start
  let old_cur := st.cur
  if tok.pass = old_cur then
    Except.ok
      { cur := tok.prev
        table :=
          { pass :=
              modifyIdx
                (modifyIdx st.table.pass tok.pass.idx
                  (fun e => { e with total := e.total + duration }))
                tok.prev.idx
                (fun e => { e with child := e.child + duration }) } }
  else
    Except.error "Timing tokens dropped out of order"

/-- Rust `take_current`: `mem::replace` the thread's table with a default one,
returning the accumulated table.  `CURRENT_PASS` is untouched. -/
def take_current (st : ThreadState) : PassTimes × ThreadState :=
  (st.table, { st with table := PassTimes.default })

/-- Rust `PassTime` pointwise accumulation used by `add_to_current`:
`a.total += b.total; a.child += b.child`. -/
def PassTime.add (a b : PassTime) : PassTime :=
  { total := a.total + b.total, child := a.child + b.child }

/-- Rust `add_to_current`: zip the thread's table with `times` and accumulate each
pair of entries. -/
def add_to_current (cur times : PassTimes) : PassTimes :=
  { pass := List.zipWith PassTime.add cur.pass times.pass }

/-- Rust `Duration::checked_sub`: `some (a - b)` when `b ≤ a`, otherwise `none`. -/
def checked_sub (a b : Nat) : Option Nat :=
  if b ≤ a then some (a - b) else Option.none

/-- Rust `fmtdur`: round to the nearest millisecond by adding 500 microseconds,
then split into whole seconds and the millisecond part of the remainder. -/
def fmtdur (dur : Nat) : Nat × Nat :=
  let dur2 := dur + 500000
  (dur2 / 1000000000, dur2 % 1000000000 / 1000000)

/-- One printed row of the timing report: the formatted total, the formatted
self time when it was printed, and the pass description. -/
structure Row where
  total : Nat × Nat
  selfTime : Option (Nat × Nat)
  desc : String
deriving DecidableEq, Repr

/-- Rust `impl fmt::Display for PassTimes`: one row per pass whose total is
non-zero, in declaration order; the self column is
`total.checked_sub(child)` formatted when that subtraction succeeds, and is
skipped (`if let Some`) otherwise. -/
def render (t : PassTimes) : List Row :=
  (t.pass.zip DESCRIPTIONS).filterMap fun td =>
    if td.1.total = 0 then Option.none
    else some
      { total := fmtdur td.1.total
        selfTime := (checked_sub td.1.total td.1.child).map fmtdur
        desc := td.2 }

/-- Rust `Request(usize, PathBuf)`: job id and test file path. -/
structure Request where
  jobid : Nat
  path : String
deriving DecidableEq, Repr

deriving instance DecidableEq for Except

/-- Rust `TestResult`: `Result<(), String>` of a single test run. -/
abbrev TestResult : Type := Except String Unit

/-- Rust `Reply`: worker-to-caller messages. -/
inductive Reply
  | starting (jobid thread_num : Nat)
  | done (jobid : Nat) (result : Except String Unit)
  | tick
deriving DecidableEq, Repr

/-- The `Box<Any>` payload a panic leaves behind, as far as the worker
inspects it: a `String`, a `&'static str`, or anything else. -/
inductive PanicPayload
  | str (msg : String)
  | static_str (msg : String)
  | other
deriving DecidableEq, Repr

/-- The failure message the worker builds from a caught panic: the payload's
text is appended when it downcasts to `String` or `&'static str`, otherwise
only the generic worker identification is used. -/
def panic_message (thread_num : Nat) : PanicPayload → String
  | .str msg => "panicked in worker #" ++ toString thread_num ++ ": " ++ msg
  | .static_str msg => "panicked in worker #" ++ toString thread_num ++ ": " ++ msg
  | .other => "panicked in worker #" ++ toString thread_num

/-- The worker loop of `worker_thread`, over the requests this worker pulls
from the shared queue.  `run` is the external collaborator
`catch_unwind(|| runone::run(path))`: `Except.ok` is a normal return with the
job-runner's own result, `Except.error` a caught panic payload.  For each
request the worker sends `Starting`, runs the job with the panic converted by
`unwrap_or_else`, sends `Done`, and continues with the next request. -/
def worker_thread (thread_num : Nat) (run : String → Except PanicPayload (Except String Unit)) :
    List Request → List Reply
  | [] => []
  | req :: rest =>
      Reply.starting req.jobid thread_num
        :: Reply.done req.jobid
            (match run req.path with
             | Except.ok result => result
             | Except.error e => Except.error (panic_message thread_num e))
        :: worker_thread thread_num run rest

/-- Rust `ConcurrentRunner`: `request_tx` is `true` while the sending end of the
request channel is present (`Some`) and `false` after `shutdown` drops it;
`queue` is the content of the request channel; `handles` are the worker
thread numbers whose join handles the pool owns. -/
structure ConcurrentRunner where
  request_tx : Bool
  queue : List Request
  handles : List Nat
deriving DecidableEq, Repr

/-- Rust `ConcurrentRunner::new`: fresh channels and one worker thread per
available processing unit (`num_cpus::get()`), numbered `0..num_cpus`. -/
def ConcurrentRunner.new (num_cpus : Nat) : ConcurrentRunner :=
  { request_tx := true, queue := [], handles := List.range num_cpus }

/-- Rust `ConcurrentRunner::shutdown`: drop the sending end of the request
channel; queued requests stay for the workers to drain. -/
def ConcurrentRunner.shutdown (cr : ConcurrentRunner) : ConcurrentRunner :=
  { cr with request_tx := false }

/-- Rust `ConcurrentRunner::put`: `expect("cannot push after shutdown")` on the
optional sender, then `send` the request.  The panic of `expect` is modelled
as `Except.error` with its message; a successful send appends to the queue
(the channel is unbounded, so the send never blocks). -/
def ConcurrentRunner.put (cr : ConcurrentRunner) (jobid : Nat) (path : String) :
    Except String ConcurrentRunner :=
  if cr.request_tx then
    Except.ok { cr with queue := cr.queue ++ [{ jobid := jobid, path := path }] }
  else
    Except.error "cannot push after shutdown"

/-- Rust `ConcurrentRunner::join`: `assert!` that shutdown happened, then for each
handle in order either merge the worker's returned `PassTimes` into the
calling thread's table (`timing::add_to_current`) or record the
`println!("worker panicked: {:?}", e)` diagnostic and continue.
`exit_result` gives each worker thread's `JoinHandle::join` outcome: the
`take_current()` table it returned on normal exit, or its panic text. -/
def ConcurrentRunner.join (cr : ConcurrentRunner)
    (exit_result : Nat → Except String PassTimes) (caller : PassTimes) :
    Except String (PassTimes × List String) :=
  if cr.request_tx then
    Except.error "must shutdown before join"
  else
    Except.ok
      (cr.handles.foldl
        (fun acc num =>
          match exit_result num with
          | Except.ok t => (add_to_current acc.1 t, acc.2)
          | Except.error e => (acc.1, acc.2 ++ ["worker panicked: " ++ e]))
        (caller, []))

/-- Holds exactly on a `Done` reply for job `j`. -/
def Reply.is_done_for (j : Nat) : Reply → Bool
  | .done jobid _ => jobid = j
  | _ => false

/-- Rendering as the specification claims it: the self column always printed,
as `total − child` clamped at zero (`Nat` subtraction truncates at zero). -/
def render_claimed (t : PassTimes) : List Row :=
  (t.pass.zip DESCRIPTIONS).filterMap fun td =>
    if td.1.total = 0 then Option.none
    else some
      { total := fmtdur td.1.total
        selfTime := some (fmtdur (td.1.total - td.1.child))
        desc := td.2 }

/-- The worker count as the specification claims `new` accepts it: an
optional caller-supplied count, defaulting to the number of available
processing units. -/
def claimed_worker_count (num_cpus : Nat) (worker_count : Option Nat) : Nat :=
  worker_count.getD num_cpus

/-! ### Helper lemmas about list indexing and the pass catalogue -/

theorem getIdx?_modifyIdx {α : Type} (f : α → α) (l : List α) :
    ∀ (i j : Nat),
      getIdx? (modifyIdx l i f) j = if i = j then (getIdx? l j).map f else getIdx? l j := by
  induction l with
  | nil => intro i j; simp [modifyIdx, getIdx?]
  | cons a l ih =>
    intro i j
    cases i with
    | zero =>
      cases j with
      | zero => simp [modifyIdx, getIdx?]
      | succ j => simp [modifyIdx, getIdx?]
    | succ i =>
      cases j with
      | zero => simp [modifyIdx, getIdx?]
      | succ j => simpa [modifyIdx, getIdx?] using ih i j

theorem getIdx?_of_lt {α : Type} :
    ∀ (l : List α) (i : Nat), i < l.length → ∃ a, getIdx? l i = some a := by
  intro l
  induction l with
  | nil => intro i h; simp at h
  | cons a l ih =>
    intro i h
    cases i with
    | zero => exact ⟨a, rfl⟩
    | succ i => exact ih i (by simpa using h)

theorem getIdx?_of_ge {α : Type} :
    ∀ (l : List α) (i : Nat), l.length ≤ i → getIdx? l i = Option.none := by
  intro l
  induction l with
  | nil => intro i _; rfl
  | cons a l ih =>
    intro i h
    cases i with
    | zero => simp at h
    | succ i => exact ih i (by simpa using h)

theorem getIdx?_replicate_getD {α : Type} (a : α) :
    ∀ (n i : Nat), (getIdx? (List.replicate n a) i).getD a = a := by
  intro n
  induction n with
  | zero => intro i; rfl
  | succ n ih =>
    intro i
    cases i with
    | zero => rfl
    | succ i => simpa [List.replicate, getIdx?] using ih i

theorem Pass.idx_lt_of_ne_none : ∀ p : Pass, p ≠ Pass.none → p.idx < NUM_PASSES := by
  decide

theorem Pass.idx_eq_num_passes : Pass.none.idx = NUM_PASSES := rfl

/-- The pointwise effect of the table update performed by
`TimingToken.drop`, at every index at once. -/
theorem entry_drop_update (L : List PassTime) (pi qi d i : Nat) :
    ((getIdx?
        (modifyIdx (modifyIdx L pi (fun e => { e with total := e.total + d })) qi
          (fun e => { e with child := e.child + d })) i).getD PassTime.default).total
      = ((getIdx? L i).getD PassTime.default).total + (if i = pi ∧ i < L.length then d else 0)
    ∧ ((getIdx?
        (modifyIdx (modifyIdx L pi (fun e => { e with total := e.total + d })) qi
          (fun e => { e with child := e.child + d })) i).getD PassTime.default).child
      = ((getIdx? L i).getD PassTime.default).child + (if i = qi ∧ i < L.length then d else 0) := by
  rcases Nat.lt_or_ge i L.length with hi | hi
  · obtain ⟨e, he⟩ := getIdx?_of_lt L i hi
    rw [getIdx?_modifyIdx, getIdx?_modifyIdx, he]
    by_cases hq : qi = i <;> by_cases hp : pi = i <;>
      simp [hq, hp, he, hi, eq_comm]
  · have he : getIdx? L i = Option.none := getIdx?_of_ge L i hi
    rw [getIdx?_modifyIdx, getIdx?_modifyIdx, he]
    have hn : ¬ i < L.length := Nat.not_lt.mpr hi
    by_cases hq : qi = i <;> by_cases hp : pi = i <;>
      simp [hq, hp, he, hn]

/-! ### Claim theorems -/

/-- C3: releasing a timing token while the thread's currently active pass is
not the pass the token was started for fails the
`debug_assert_eq!(self.pass, old_cur, "Timing tokens dropped out of order")`
consistency check: the drop reports the violation as a panic and the timing
table is not updated. -/
theorem timing_token_lifo_violation_detected (tok : TimingToken) (now : Nat)
    (st : ThreadState) (h : st.cur ≠ tok.pass) :
    tok.drop now st = Except.error "Timing tokens dropped out of order" := by
  unfold TimingToken.drop
  rw [if_neg (fun hc => h hc.symm)]

theorem timing_token_lifo_violation_detected_witness :
    TimingToken.drop { start := 0, pass := Pass.verifier, prev := Pass.none } 5
        { cur := Pass.compile, table := PassTimes.default }
      = Except.error "Timing tokens dropped out of order" :=
  timing_token_lifo_violation_detected
    { start := 0, pass := Pass.verifier, prev := Pass.none } 5
    { cur := Pass.compile, table := PassTimes.default } (by decide)

theorem PassTime.add_right_comm (a b c : PassTime) :
    (a.add b).add c = (a.add c).add b := by
  simp only [PassTime.add, PassTime.mk.injEq]
  omega

theorem zipWith_add_right_comm :
    ∀ (cur t1 t2 : List PassTime),
      List.zipWith PassTime.add (List.zipWith PassTime.add cur t1) t2
        = List.zipWith PassTime.add (List.zipWith PassTime.add cur t2) t1 := by
  intro cur
  induction cur with
  | nil => intro t1 t2; simp
  | cons a cur ih =>
    intro t1 t2
    cases t1 with
    | nil => simp
    | cons b t1 =>
      cases t2 with
      | nil => simp
      | cons c t2 => simp [ih t1 t2, PassTime.add_right_comm]

/-- C4: merging table `t1` and then table `t2` into the current thread's
table yields the same table, entry by entry, as merging `t2` and then `t1`. -/
theorem add_to_current_merge_comm (cur t1 t2 : PassTimes) :
    add_to_current (add_to_current cur t1) t2 = add_to_current (add_to_current cur t2) t1 := by
  unfold add_to_current
  exact congrArg PassTimes.mk (zipWith_add_right_comm cur.pass t1.pass t2.pass)

/-- C5: `take_current` hands back the thread's accumulated table and leaves a
fresh zeroed table in its place, so an immediately repeated `take_current`
returns a table whose every entry is zero. -/
theorem take_current_resets (st : ThreadState) :
    (take_current st).1 = st.table
    ∧ (take_current st).2.table = PassTimes.default
    ∧ ∀ i, ((take_current ((take_current st).2)).1).entry i = PassTime.default := by
  refine ⟨rfl, rfl, fun i => ?_⟩
  show PassTimes.default.entry i = PassTime.default
  unfold PassTimes.entry PassTimes.default
  exact getIdx?_replicate_getD PassTime.default NUM_PASSES i

/-- C10: `take_current` replaces only the thread's timing table; the
currently active pass slot is untouched, so a token dropped after the
extraction passes or fails the same consistency check and restores the same
previously active pass as it would have before the extraction. -/
theorem take_current_preserves_current_pass (st : ThreadState) :
    (take_current st).2.cur = st.cur
    ∧ ∀ (tok : TimingToken) (now : Nat),
        (tok.drop now (take_current st).2).isOk = (tok.drop now st).isOk
        ∧ Except.map ThreadState.cur (tok.drop now (take_current st).2)
            = Except.map ThreadState.cur (tok.drop now st) := by
  refine ⟨rfl, fun tok now => ?_⟩
  unfold take_current TimingToken.drop
  by_cases h : tok.pass = st.cur <;> simp [h, Except.isOk, Except.toBool, Except.map]

/-- C2: dropping a timing token in LIFO position adds the elapsed time since
the token's start to `total` of the token's pass entry and to `child` of the
previously active pass's entry exactly when that previous pass is a real pass
(the sentinel's index `29` lies outside the 29-entry table, so its `get_mut`
misses), restores the currently active pass to `prev`, and changes no other
`total` or `child`. -/
theorem timing_token_drop_attribution (tok : TimingToken) (now : Nat) (st : ThreadState)
    (hcur : st.cur = tok.pass) (hpass : tok.pass ≠ Pass.none)
    (hlen : st.table.pass.length = NUM_PASSES) :
    (tok.drop now st).map ThreadState.cur = Except.ok tok.prev
    ∧ (tok.drop now st).map (fun s => (s.table.entry tok.pass.idx).total)
        = Except.ok ((st.table.entry tok.pass.idx).total + (now - tok.start))
    ∧ (tok.prev ≠ Pass.none →
        (tok.drop now st).map (fun s => (s.table.entry tok.prev.idx).child)
          = Except.ok ((st.table.entry tok.prev.idx).child + (now - tok.start)))
    ∧ (tok.prev = Pass.none → ∀ i,
        (tok.drop now st).map (fun s => (s.table.entry i).child)
          = Except.ok ((st.table.entry i).child))
    ∧ (∀ i, i ≠ tok.pass.idx →
        (tok.drop now st).map (fun s => (s.table.entry i).total)
          = Except.ok ((st.table.entry i).total)) := by
  unfold TimingToken.drop
  rw [if_pos hcur.symm]
  simp only [Except.map]
  refine ⟨by trivial, ?_, ?_, ?_, ?_⟩
  · have h := (entry_drop_update st.table.pass tok.pass.idx tok.prev.idx
      (now - tok.start) tok.pass.idx).1
    have hc : tok.pass.idx = tok.pass.idx ∧ tok.pass.idx < st.table.pass.length :=
      ⟨rfl, by rw [hlen]; exact Pass.idx_lt_of_ne_none tok.pass hpass⟩
    unfold PassTimes.entry
    rw [h, if_pos hc]
  · intro hprev
    have h := (entry_drop_update st.table.pass tok.pass.idx tok.prev.idx
      (now - tok.start) tok.prev.idx).2
    have hc : tok.prev.idx = tok.prev.idx ∧ tok.prev.idx < st.table.pass.length :=
      ⟨rfl, by rw [hlen]; exact Pass.idx_lt_of_ne_none tok.prev hprev⟩
    unfold PassTimes.entry
    rw [h, if_pos hc]
  · intro hprev i
    have h := (entry_drop_update st.table.pass tok.pass.idx tok.prev.idx
      (now - tok.start) i).2
    unfold PassTimes.entry
    rw [h, if_neg, Nat.add_zero]
    rintro ⟨rfl, hi⟩
    rw [hlen] at hi
    exact absurd hi (by rw [hprev, Pass.idx_eq_num_passes]; exact Nat.lt_irrefl _)
  · intro i hi
    have h := (entry_drop_update st.table.pass tok.pass.idx tok.prev.idx
      (now - tok.start) i).1
    unfold PassTimes.entry
    rw [h, if_neg, Nat.add_zero]
    rintro ⟨hip, _⟩
    exact hi hip

theorem timing_token_drop_attribution_witness :
    (TimingToken.drop { start := 2, pass := Pass.verifier, prev := Pass.compile } 10
        { cur := Pass.verifier, table := PassTimes.default }).map
        (fun s => (s.table.entry Pass.verifier.idx).total)
      = Except.ok (((PassTimes.default : PassTimes).entry Pass.verifier.idx).total + (10 - 2))
    ∧ (TimingToken.drop { start := 2, pass := Pass.verifier, prev := Pass.compile } 10
        { cur := Pass.verifier, table := PassTimes.default }).map
        (fun s => (s.table.entry Pass.compile.idx).child)
      = Except.ok (((PassTimes.default : PassTimes).entry Pass.compile.idx).child + (10 - 2))
    ∧ (TimingToken.drop { start := 2, pass := Pass.verifier, prev := Pass.compile } 10
        { cur := Pass.verifier, table := PassTimes.default }).map ThreadState.cur
      = Except.ok Pass.compile :=
  ⟨(timing_token_drop_attribution { start := 2, pass := Pass.verifier, prev := Pass.compile }
      10 { cur := Pass.verifier, table := PassTimes.default } rfl (by decide) (by decide)).2.1,
   (timing_token_drop_attribution { start := 2, pass := Pass.verifier, prev := Pass.compile }
      10 { cur := Pass.verifier, table := PassTimes.default } rfl (by decide) (by decide)).2.2.1
      (by decide),
   (timing_token_drop_attribution { start := 2, pass := Pass.verifier, prev := Pass.compile }
      10 { cur := Pass.verifier, table := PassTimes.default } rfl (by decide) (by decide)).1⟩

theorem worker_thread_append (n : Nat)
    (run : String → Except PanicPayload (Except String Unit)) :
    ∀ (a b : List Request),
      worker_thread n run (a ++ b) = worker_thread n run a ++ worker_thread n run b := by
  intro a
  induction a with
  | nil => intro b; simp [worker_thread]
  | cons r a ih => intro b; simp [worker_thread, ih]

/-- C1: a job whose run panics is turned into a `Done` reply carrying a
failure whose message names the catching worker, with the payload text
appended when the payload is a `String` or `&'static str` and the bare
generic message otherwise; the worker keeps processing every request before
and after the faulting one. -/
theorem worker_panic_isolation (n j : Nat) (p : String)
    (run : String → Except PanicPayload (Except String Unit)) (payload : PanicPayload)
    (pre post : List Request) (h : run p = Except.error payload) :
    worker_thread n run (pre ++ { jobid := j, path := p } :: post)
      = worker_thread n run pre
        ++ Reply.starting j n
        :: Reply.done j (Except.error (panic_message n payload))
        :: worker_thread n run post
    ∧ (∀ m, payload = PanicPayload.str m ∨ payload = PanicPayload.static_str m →
        panic_message n payload = "panicked in worker #" ++ toString n ++ ": " ++ m)
    ∧ (payload = PanicPayload.other →
        panic_message n payload = "panicked in worker #" ++ toString n) := by
  refine ⟨?_, ?_, ?_⟩
  · rw [worker_thread_append]
    simp [worker_thread, h]
  · rintro m (rfl | rfl) <;> rfl
  · rintro rfl; rfl

/-- The job-runner outcome used in concrete scenarios: `"b.test"` panics with
the string payload `"bad input"`, every other path succeeds. -/
def run_scenario : String → Except PanicPayload (Except String Unit) :=
  fun s => if s = "b.test" then Except.error (PanicPayload.str "bad input")
           else Except.ok (Except.ok ())

theorem worker_panic_isolation_witness :
    worker_thread 1 run_scenario
        ([{ jobid := 1, path := "a.test" }] ++ { jobid := 2, path := "b.test" } :: [])
      = worker_thread 1 run_scenario [{ jobid := 1, path := "a.test" }]
        ++ Reply.starting 2 1
        :: Reply.done 2 (Except.error (panic_message 1 (PanicPayload.str "bad input")))
        :: worker_thread 1 run_scenario []
    ∧ panic_message 1 (PanicPayload.str "bad input")
      = "panicked in worker #" ++ toString 1 ++ ": " ++ "bad input" :=
  ⟨(worker_panic_isolation 1 2 "b.test" run_scenario (PanicPayload.str "bad input")
      [{ jobid := 1, path := "a.test" }] [] (by decide)).1,
   (worker_panic_isolation 1 2 "b.test" run_scenario (PanicPayload.str "bad input")
      [{ jobid := 1, path := "a.test" }] [] (by decide)).2.1 "bad input" (Or.inl rfl)⟩

theorem worker_thread_no_done (n j : Nat)
    (run : String → Except PanicPayload (Except String Unit)) :
    ∀ (reqs : List Request), reqs.all (fun r => r.jobid != j) = true →
      (worker_thread n run reqs).all (fun rep => !(rep.is_done_for j)) = true := by
  intro reqs
  induction reqs with
  | nil => intro _; rfl
  | cons r reqs ih =>
    intro h
    rw [List.all_cons] at h
    rcases Bool.and_eq_true_iff.mp h with ⟨h1, h2⟩
    simp only [worker_thread, List.all_cons]
    refine Bool.and_eq_true_iff.mpr ⟨rfl, Bool.and_eq_true_iff.mpr ⟨?_, ih h2⟩⟩
    simp only [Reply.is_done_for]
    simpa using h1

/-- C6: after `shutdown`, `put` fails at once with the
`"cannot push after shutdown"` panic and the queue is unchanged, so no worker
ever produces a `Done` reply for the rejected job id; before shutdown, `put`
enqueues the request. -/
theorem put_after_shutdown_rejected (cr : ConcurrentRunner) (j n : Nat) (p : String)
    (run : String → Except PanicPayload (Except String Unit))
    (hj : cr.queue.all (fun r => r.jobid != j) = true) :
    (cr.shutdown).put j p = Except.error "cannot push after shutdown"
    ∧ (cr.shutdown).queue = cr.queue
    ∧ (worker_thread n run cr.queue).all (fun rep => !(rep.is_done_for j)) = true
    ∧ (cr.request_tx = true →
        cr.put j p = Except.ok { cr with queue := cr.queue ++ [{ jobid := j, path := p }] }) := by
  refine ⟨rfl, rfl, worker_thread_no_done n j run cr.queue hj, fun ht => ?_⟩
  unfold ConcurrentRunner.put
  rw [ht]
  rfl

/-- A running pool with one queued job, used in concrete scenarios. -/
def pool_scenario : ConcurrentRunner :=
  { request_tx := true, queue := [{ jobid := 1, path := "a.test" }], handles := [0] }

theorem put_after_shutdown_rejected_witness :
    (pool_scenario.shutdown).put 5 "x.test" = Except.error "cannot push after shutdown"
    ∧ (worker_thread 0 run_scenario pool_scenario.queue).all
        (fun rep => !(rep.is_done_for 5)) = true
    ∧ pool_scenario.put 5 "x.test"
      = Except.ok
          { pool_scenario with queue := pool_scenario.queue ++ [{ jobid := 5, path := "x.test" }] } :=
  ⟨(put_after_shutdown_rejected pool_scenario 5 0 "x.test" run_scenario (by decide)).1,
   (put_after_shutdown_rejected pool_scenario 5 0 "x.test" run_scenario (by decide)).2.2.1,
   (put_after_shutdown_rejected pool_scenario 5 0 "x.test" run_scenario (by decide)).2.2.2 rfl⟩

theorem join_foldl (exit_result : Nat → Except String PassTimes) :
    ∀ (hs : List Nat) (acc : PassTimes) (ds : List String),
      hs.foldl
        (fun acc num =>
          match exit_result num with
          | Except.ok t => (add_to_current acc.1 t, acc.2)
          | Except.error e => (acc.1, acc.2 ++ ["worker panicked: " ++ e]))
        (acc, ds)
      = ((hs.filterMap (fun num => (exit_result num).toOption)).foldl add_to_current acc,
         ds ++ hs.filterMap (fun num =>
            match exit_result num with
            | Except.error e => some ("worker panicked: " ++ e)
            | Except.ok _ => Option.none)) := by
  intro hs
  induction hs with
  | nil => intro acc ds; simp
  | cons n hs ih =>
    intro acc ds
    cases hx : exit_result n with
    | ok t =>
      simp only [List.foldl_cons, List.filterMap_cons, hx, Except.toOption]
      exact ih (add_to_current acc t) ds
    | error e =>
      simp only [List.foldl_cons, List.filterMap_cons, hx, Except.toOption]
      rw [ih acc (ds ++ ["worker panicked: " ++ e])]
      simp [Except.toOption]

/-- C7: `join` panics with `"must shutdown before join"` while the sending
end of the request channel is still present; after shutdown it merges every
normally exited worker's returned table into the calling thread's table, in
handle order, and turns every abnormally exited worker into a
`worker panicked` diagnostic without stopping the traversal of the remaining
handles. -/
theorem join_after_shutdown_merges (cr : ConcurrentRunner)
    (exit_result : Nat → Except String PassTimes) (caller : PassTimes) :
    (cr.request_tx = true →
      cr.join exit_result caller = Except.error "must shutdown before join")
    ∧ (cr.request_tx = false →
      cr.join exit_result caller
        = Except.ok
            ((cr.handles.filterMap (fun num => (exit_result num).toOption)).foldl
                add_to_current caller,
             cr.handles.filterMap (fun num =>
                match exit_result num with
                | Except.error e => some ("worker panicked: " ++ e)
                | Except.ok _ => Option.none))) := by
  constructor
  · intro h
    unfold ConcurrentRunner.join
    rw [h]
    rfl
  · intro h
    unfold ConcurrentRunner.join
    rw [h]
    simp only [Bool.false_eq_true, if_false, join_foldl exit_result cr.handles caller []]
    rw [List.nil_append]

/-- The worker exit results used in the join scenario: worker `0` returns its
zeroed table, worker `1` panicked with payload text `"boom"`. -/
def exit_scenario : Nat → Except String PassTimes :=
  fun num => if num = 0 then Except.ok PassTimes.default else Except.error "boom"

theorem join_after_shutdown_merges_witness :
    ConcurrentRunner.join { request_tx := false, queue := [], handles := [0, 1] }
        exit_scenario PassTimes.default
      = Except.ok
          ((([0, 1].filterMap (fun num => (exit_scenario num).toOption)).foldl
              add_to_current PassTimes.default),
           [0, 1].filterMap (fun num =>
              match exit_scenario num with
              | Except.error e => some ("worker panicked: " ++ e)
              | Except.ok _ => Option.none))
    ∧ ConcurrentRunner.join { request_tx := true, queue := [], handles := [0, 1] }
        exit_scenario PassTimes.default
      = Except.error "must shutdown before join" :=
  ⟨(join_after_shutdown_merges { request_tx := false, queue := [], handles := [0, 1] }
      exit_scenario PassTimes.default).2 rfl,
   (join_after_shutdown_merges { request_tx := true, queue := [], handles := [0, 1] }
      exit_scenario PassTimes.default).1 rfl⟩

/-- C9 amended: `new` accepts no worker count; it always spawns exactly one
worker thread per available processing unit, numbered in order, with the
submission channel open and the queue empty. -/
theorem new_spawns_one_worker_per_cpu (num_cpus : Nat) :
    (ConcurrentRunner.new num_cpus).handles.length = num_cpus
    ∧ (ConcurrentRunner.new num_cpus).handles = List.range num_cpus
    ∧ (ConcurrentRunner.new num_cpus).request_tx = true
    ∧ (ConcurrentRunner.new num_cpus).queue = [] := by
  refine ⟨?_, rfl, rfl, rfl⟩
  simp [ConcurrentRunner.new]

/-- C9 counterexample: on a machine with 4 processing units, a caller
supplying a worker count of 3 as the claim describes would get 3 workers,
but the source's `new` takes no such argument and spawns 4. -/
theorem new_ignores_claimed_worker_count :
    (ConcurrentRunner.new 4).handles.length ≠ claimed_worker_count 4 (some 3) := by
  decide

/-- C8 amended: every pass with non-zero total is printed with its total
time; the self column carries `total − child` when `child ≤ total` and is
omitted entirely (the `if let Some` around `checked_sub` misses) when the
accumulated child time exceeds the total. -/
theorem render_self_column (t : PassTimes) :
    (∀ td, td ∈ t.pass.zip DESCRIPTIONS → td.1.total ≠ 0 →
        ({ total := fmtdur td.1.total
           selfTime :=
             if td.1.child ≤ td.1.total then some (fmtdur (td.1.total - td.1.child))
             else Option.none
           desc := td.2 } : Row) ∈ render t)
    ∧ (∀ r, r ∈ render t → ∃ td, td ∈ t.pass.zip DESCRIPTIONS ∧ td.1.total ≠ 0
        ∧ r.total = fmtdur td.1.total ∧ r.desc = td.2
        ∧ ((td.1.child ≤ td.1.total ∧ r.selfTime = some (fmtdur (td.1.total - td.1.child)))
            ∨ (td.1.total < td.1.child ∧ r.selfTime = Option.none))) := by
  constructor
  · intro td htd hne
    unfold render
    rw [List.mem_filterMap]
    refine ⟨td, htd, ?_⟩
    rw [if_neg hne]
    unfold checked_sub
    by_cases hc : td.1.child ≤ td.1.total <;> simp [hc]
  · intro r hr
    unfold render at hr
    rw [List.mem_filterMap] at hr
    obtain ⟨td, htd, hf⟩ := hr
    by_cases hz : td.1.total = 0
    · rw [if_pos hz] at hf
      exact absurd hf (by simp)
    · rw [if_neg hz] at hf
      refine ⟨td, htd, hz, ?_, ?_, ?_⟩
      · rw [← Option.some_inj.mp hf]
      · rw [← Option.some_inj.mp hf]
      · unfold checked_sub at hf
        by_cases hc : td.1.child ≤ td.1.total
        · left
          refine ⟨hc, ?_⟩
          rw [← Option.some_inj.mp hf]
          simp [hc]
        · right
          refine ⟨Nat.lt_of_not_le hc, ?_⟩
          rw [← Option.some_inj.mp hf]
          simp [hc]

/-- A table whose first pass accumulated more child time than total time
(possible through rounding of the underlying clock), all other passes never
ran. -/
def overchild_table : PassTimes :=
  { pass := { total := 1000000, child := 2000000 } :: List.replicate 28 PassTime.default }

theorem render_self_column_witness :
    ({ total := fmtdur 1000000
       selfTime :=
         if (2000000 : Nat) ≤ 1000000 then some (fmtdur (1000000 - 2000000))
         else Option.none
       desc := "Processing test file" } : Row) ∈ render overchild_table :=
  (render_self_column overchild_table).1
    ({ total := 1000000, child := 2000000 }, "Processing test file") (by decide) (by decide)

/-- C8 counterexample: on `overchild_table` the report omits the self column
of the first row, while rendering with the claimed clamped-at-zero self time
prints `0.000` there; the two renderings differ. -/
theorem render_self_not_clamped : render overchild_table ≠ render_claimed overchild_table := by
  decide

end Cretonne
